import Mathlib

/-!
Verification of the ingestion-and-retrieval pipeline of the ai-workflow-manager
repository.  Each JavaScript function relevant to the checked properties is
translated into an executable Lean definition; external capabilities (HTTP
fetching, URL parsing, the embedding and generation services, the document
and vector stores) are passed in as explicit function parameters, mirroring
the points at which the source code calls out to them.
-/

namespace AiWorkflow

/-! ## JavaScript string primitives

`isJsWhitespace` is the character class matched by the regex `\s` in
JavaScript (and the characters removed by `String.prototype.trim`).
-/

def isJsWhitespace (c : Char) : Bool :=
  c = ' ' || c = '\t' || c = '\n' || c = '\r' || c = '\x0b' || c = '\x0c' ||
  c = '\u00A0' || c = '\u1680' ||
  ('\u2000' ≤ c && c ≤ '\u200A') ||
  c = '\u2028' || c = '\u2029' || c = '\u202F' || c = '\u205F' || c = '\u3000' ||
  c = '\uFEFF'

/-- `String.prototype.trim`: strip leading and trailing `\s` characters. -/
def jsTrim (s : String) : String :=
  ⟨((s.data.dropWhile isJsWhitespace).reverse.dropWhile isJsWhitespace).reverse⟩

/-! ## Chunker (`splitTextIntoChunks`, src/backend/lambda/generate_embeddings.js)

The source splits the text on newline runs (`text.split(/\n+/)`) and on
sentence punctuation runs (`paragraph.split(/[.!?]+/)`) and in both cases
immediately discards blank segments with `.filter(p => p.trim().length > 0)`.
Splitting at every single separator character yields the same non-blank
segments as splitting at maximal separator runs, so the model splits at each
separator character and applies the same blank filter.
-/

def isSentenceSep (c : Char) : Bool :=
  c = '.' || c = '!' || c = '?'

/-- `String.prototype.split` at every character satisfying `p`
(empty segments between consecutive separators are produced, as in
JavaScript, and removed afterwards by the blank filter). -/
def splitChars (p : Char → Bool) : List Char → List (List Char)
  | [] => [[]]
  | c :: rest =>
    match splitChars p rest with
    | [] => if p c then [[], []] else [[c]]
    | seg :: segs => if p c then [] :: seg :: segs else (c :: seg) :: segs

def stringSplit (p : Char → Bool) (s : String) : List String :=
  (splitChars p s.data).map String.mk

/-- The `while (remainingSentence.length > 0)` hard-split loop, with the
length of the sentence as fuel: for `maxChunkSize ≥ 1` each round removes at
least one character, so the fuel never runs out before the sentence is
exhausted.  (For `maxChunkSize = 0` the source loop would not terminate;
no claim exercises that case since all claims assume `maxChunkSize > 0`.) -/
def hardSplitAux (maxChunkSize : Nat) : Nat → List Char → List (List Char)
  | 0, _ => []
  | fuel + 1, s =>
    if s = [] then []
    else (s.take maxChunkSize) :: hardSplitAux maxChunkSize fuel (s.drop maxChunkSize)

def hardSplit (s : List Char) (maxChunkSize : Nat) : List (List Char) :=
  hardSplitAux maxChunkSize s.length s

/-- One step of the inner `for (const sentence of sentences)` loop.  The
state is the pair (chunks emitted so far, current chunk). -/
def sentenceStep (maxChunkSize : Nat) (st : List String × String) (sentence : String) :
    List String × String :=
  let (chunks, cur) := st
  if cur.length + sentence.length + 1 ≤ maxChunkSize then
    (chunks, cur ++ (if cur ≠ "" then " " else "") ++ jsTrim sentence ++ ".")
  else
    let chunks := if cur ≠ "" then chunks ++ [cur] else chunks
    if sentence.length > maxChunkSize then
      (chunks ++ (hardSplit sentence.data maxChunkSize).map (fun l => String.mk l), "")
    else
      (chunks, jsTrim sentence ++ ".")

/-- One step of the outer `for (const paragraph of paragraphs)` loop. -/
def paragraphStep (maxChunkSize : Nat) (st : List String × String) (paragraph : String) :
    List String × String :=
  let (chunks, cur) := st
  if paragraph.length > maxChunkSize then
    let sentences := (stringSplit isSentenceSep paragraph).filter
      (fun s => (jsTrim s).length > 0)
    sentences.foldl (sentenceStep maxChunkSize) (chunks, cur)
  else
    if cur.length + paragraph.length + 1 ≤ maxChunkSize then
      (chunks, cur ++ (if cur ≠ "" then "\n" else "") ++ paragraph)
    else
      (chunks ++ [cur], paragraph)

/-- `splitTextIntoChunks(text, maxChunkSize)` from generate_embeddings.js. -/
def splitTextIntoChunks (text : String) (maxChunkSize : Nat) : List String :=
  let paragraphs := (stringSplit (· = '\n') text).filter (fun p => (jsTrim p).length > 0)
  let (chunks, currentChunk) := paragraphs.foldl (paragraphStep maxChunkSize) ([], "")
  if currentChunk ≠ "" then chunks ++ [currentChunk] else chunks

/-! ## Text normalizer (`cleanText`, src/backend/lambda/extract_text.js)

`cleanText` delegates HTML stripping to the cheerio library and unicode
normalization to `String.prototype.normalize`; both are passed in as
function parameters.  The two regex replacements
(`replace(/\s+/g, ' ')` and `replace(/\n{3,}/g, '\n\n')`) are modelled as
character-run rewrites.
-/

/-- `replace(/\s+/g, ' ')`: every maximal run of whitespace becomes one
space.  The boolean records whether the previous character was part of a
whitespace run. -/
def collapseWsAux : Bool → List Char → List Char
  | _, [] => []
  | prevWs, c :: rest =>
    if isJsWhitespace c then
      if prevWs then collapseWsAux true rest else ' ' :: collapseWsAux true rest
    else c :: collapseWsAux false rest

def collapseWhitespace (s : String) : String := ⟨collapseWsAux false s.data⟩

def emitNewlineRun (n : Nat) : List Char :=
  if n ≥ 3 then ['\n', '\n'] else List.replicate n '\n'

/-- `replace(/\n{3,}/g, '\n\n')`: a run of three or more newlines becomes
exactly two; shorter runs are kept.  The counter is the length of the
pending newline run. -/
def collapseNlAux : Nat → List Char → List Char
  | run, [] => emitNewlineRun run
  | run, c :: rest =>
    if c = '\n' then collapseNlAux (run + 1) rest
    else emitNewlineRun run ++ c :: collapseNlAux 0 rest

def collapseNewlines (s : String) : String := ⟨collapseNlAux 0 s.data⟩

/-- `cleanText(text)` from extract_text.js.  `stripHtml` stands for
cheerio's `$.text()` extraction, `unicodeNormalize` for
`String.prototype.normalize`. -/
def cleanText (stripHtml unicodeNormalize : String → String) (text : String) : String :=
  let cleanedText := if text.data.contains '<' && text.data.contains '>' then stripHtml text else text
  let cleanedText := collapseWhitespace cleanedText
  let cleanedText := collapseNewlines cleanedText
  let cleanedText := unicodeNormalize cleanedText
  jsTrim cleanedText

/-! ## Input validation (`validate_input.js`, handler)

The event is arbitrary JSON in the source; the model covers the fields the
handler inspects.  A JavaScript falsy check `!x` on a string-valued field
is `true` for a missing field and for the empty string, so string fields
are `Option String` with `none`/`some ""` both falsy.  The numeric config
fields are inspected through `parseInt(·, 10)`, whose outcome is either an
integer or `NaN`; `JsNum` is that outcome.  `embeddingModel` is only
checked for `typeof ... !== 'string'` under a truthiness guard, so its
model keeps the type and the truthiness of the supplied value.  The tenant
lookup in DynamoDB is modelled by the total predicate `tenantExists`. -/

inductive JsNum
  | nan
  | int (n : Int)
  deriving DecidableEq, Repr

inductive JsVal
  | jsStr (s : String)
  | jsOther (truthy : Bool)
  deriving DecidableEq, Repr

def jsFalsy : Option String → Bool
  | none => true
  | some s => s = ""

structure DataSourceInput where
  type : Option String
  url : Option String
  name : Option String
  deriving DecidableEq, Repr

structure ConfigInput where
  crawlDepth : Option JsNum
  memoryDuration : Option JsNum
  maxDocuments : Option JsNum
  embeddingModel : Option JsVal
  deriving DecidableEq, Repr

structure ValidateEvent where
  tenantId : Option String
  dataSources : Option (List DataSourceInput)
  config : Option ConfigInput
  deriving DecidableEq, Repr

structure ValidationResult where
  isValid : Bool
  errors : List String
  deriving DecidableEq, Repr

def tenantErrors (tenantExists : String → Bool) : Option String → List String
  | none => ["Missing required parameter: tenantId"]
  | some s =>
    if s = "" then ["Missing required parameter: tenantId"]
    else if tenantExists s then []
    else ["Tenant not found: " ++ s]

def sourceErrors (i : Nat) (s : DataSourceInput) : List String :=
  (match s.type with
    | none => ["Data source at index " ++ toString i ++ " is missing required parameter: type"]
    | some t =>
      if t = "" then ["Data source at index " ++ toString i ++ " is missing required parameter: type"]
      else if t = "website" || t = "api" || t = "document" then []
      else ["Data source at index " ++ toString i ++ " has invalid type: " ++ t])
  ++ (if jsFalsy s.url then ["Data source at index " ++ toString i ++ " is missing required parameter: url"] else [])
  ++ (if jsFalsy s.name then ["Data source at index " ++ toString i ++ " is missing required parameter: name"] else [])

/-- The indexed `forEach` over `event.dataSources`. -/
def sourcesErrors : Nat → List DataSourceInput → List String
  | _, [] => []
  | i, s :: rest => sourceErrors i s ++ sourcesErrors (i + 1) rest

def dataSourcesErrors : Option (List DataSourceInput) → List String
  | none => ["Missing or invalid dataSources: must be a non-empty array"]
  | some l =>
    if l = [] then ["Missing or invalid dataSources: must be a non-empty array"]
    else sourcesErrors 0 l

def rangeErrors (v : Option JsNum) (lo hi : Int) (msg : String) : List String :=
  match v with
  | none => []
  | some JsNum.nan => [msg]
  | some (JsNum.int n) => if n < lo || n > hi then [msg] else []

def configErrors : Option ConfigInput → List String
  | none => ["Missing or invalid config: must be an object"]
  | some c =>
    rangeErrors c.crawlDepth 1 3 "Invalid crawlDepth: must be a number between 1 and 3"
    ++ rangeErrors c.memoryDuration 5 1440 "Invalid memoryDuration: must be a number between 5 and 1440 minutes"
    ++ rangeErrors c.maxDocuments 1 20 "Invalid maxDocuments: must be a number between 1 and 20"
    ++ (match c.embeddingModel with
        | some (JsVal.jsOther true) => ["Invalid embeddingModel: must be a string"]
        | _ => [])

/-- The validate_input.js handler (its error-collecting body; the
fallback `catch` for infrastructure exceptions is outside the model since
the DynamoDB lookup is modelled as the total predicate `tenantExists`). -/
def validateInput (tenantExists : String → Bool) (ev : ValidateEvent) : ValidationResult :=
  let errors := tenantErrors tenantExists ev.tenantId
    ++ dataSourcesErrors ev.dataSources
    ++ configErrors ev.config
  { isValid := errors.isEmpty, errors := errors }

/-! ## Web crawler (`rag_crawler.js` handler)

The network is the oracle `web : String → CrawlPage` (the `crawlUrl`
helper already catches fetch errors and returns empty content and no links,
so the oracle is total).  URL parsing (`new URL(url).hostname`, and
url-parse for the base URL) is the partial function
`hostname : String → Option String`, `none` marking a parse failure.
Within a batch the `visitedUrls` check and insertion run synchronously
before the first `await`, so the visited-set updates are sequential; the
model folds over the level's URL list in order. -/

structure CrawlPage where
  content : String
  links : List String

structure CrawlState where
  visited : List String
  fetched : List String
  pages : List (String × String)

/-- `isSameDomain(url, domain)` from rag_crawler.js. -/
def sameDomain (hostname : String → Option String) (url domain : String) : Bool :=
  match hostname url with
  | some h => h = domain || h.endsWith ("." ++ domain)
  | none => false

/-- Visiting one URL of the current depth level: skip if already visited,
otherwise record the visit, fetch the page, keep non-blank content, and
(when another depth level follows) queue the unvisited same-domain links. -/
def crawlVisit (web : String → CrawlPage) (hostname : String → Option String)
    (domain : String) (collectLinks : Bool)
    (acc : CrawlState × List String) (u : String) : CrawlState × List String :=
  if u ∈ acc.1.visited then acc
  else
    let page := web u
    let st : CrawlState :=
      { visited := acc.1.visited ++ [u]
        fetched := acc.1.fetched ++ [u]
        pages := if (jsTrim page.content).length > 0 then acc.1.pages ++ [(u, page.content)]
                 else acc.1.pages }
    let next := if collectLinks then
        acc.2 ++ page.links.filter (fun l => !(st.visited.contains l) && sameDomain hostname l domain)
      else acc.2
    (st, next)

/-- `[...new Set(xs)]`: deduplicate keeping first occurrences. -/
def dedupKeepFirst (l : List String) : List String :=
  l.foldl (fun acc u => if u ∈ acc then acc else acc ++ [u]) []

/-- A fetched URL is either the starting URL or same-domain: the invariant
behind the crawler's domain restriction. -/
def crawlOk (hostname : String → Option String) (baseUrl domain u : String) : Prop :=
  u = baseUrl ∨ sameDomain hostname u domain = true

/-- Invariant carried through one depth level of the crawl: fetched URLs
are pairwise distinct, marked visited, and domain-restricted, and every
queued link is same-domain. -/
def levelInv (hostname : String → Option String) (baseUrl domain : String)
    (res : CrawlState × List String) : Prop :=
  res.1.fetched.Nodup
  ∧ (∀ u ∈ res.1.fetched, u ∈ res.1.visited)
  ∧ (∀ u ∈ res.1.fetched, crawlOk hostname baseUrl domain u)
  ∧ (∀ u ∈ res.2, sameDomain hostname u domain = true)

/-- The `for (let depth = 0; depth < crawlDepth; depth++)` loop; the
argument counts the remaining depth levels.  Links are only collected when
a further level follows (`depth < crawlDepth - 1`), and the loop breaks
early once no URLs are left. -/
def crawlLoop (web : String → CrawlPage) (hostname : String → Option String)
    (domain : String) : Nat → List String → CrawlState → CrawlState
  | 0, _, st => st
  | rem + 1, urls, st =>
    let step := urls.foldl (crawlVisit web hostname domain (decide (0 < rem))) (st, [])
    let next := dedupKeepFirst step.2
    if next = [] then step.1 else crawlLoop web hostname domain rem next step.1

/-- The rag_crawler.js handler's crawl phase, starting from the normalized
base URL. -/
def crawlWebsite (web : String → CrawlPage) (hostname : String → Option String)
    (baseUrl : String) (crawlDepth : Nat) : CrawlState :=
  let domain := (hostname baseUrl).getD ""
  crawlLoop web hostname domain crawlDepth [baseUrl] ⟨[], [], []⟩

/-! ## Pipeline orchestrator (Step Functions state machine, `src/unnamed/part_000`)

Each Task state's effective outcome after its retry policy is a boolean
drawn from an oracle.  A failing stage is caught (`States.ALL`) and routed
to its stage-specific error-handler Task; the Pass states
`SourceProcessingSucceeded` / `SourceProcessingFailed` both end the Map
iteration normally.  An error-handler Task has no Catch of its own, so if
it fails the whole execution fails; `BranchTerminal.crashed` models that
case.  `AnalyzeResults` and `NotifyCompletion` have neither Retry nor
Catch, so their failures abort the run. -/

structure BranchOracle where
  fetchOk : Bool
  extractOk : Bool
  embedOk : Bool
  storeOk : Bool
  errorHandlerOk : Bool
  deriving DecidableEq, Repr

inductive BranchTerminal
  | succeeded
  | failed
  | crashed
  deriving DecidableEq, Repr

instance : BEq BranchTerminal := instBEqOfDecidableEq

def handleBranchError (o : BranchOracle) : BranchTerminal :=
  if o.errorHandlerOk then BranchTerminal.failed else BranchTerminal.crashed

/-- One Map iteration: `DetermineSourceType` dispatches on the `type`
string, each stage either proceeds or routes to its error handler, and an
unrecognized type routes to `InvalidSourceType`. -/
def runBranch (srcType : String) (o : BranchOracle) : BranchTerminal :=
  if srcType = "website" || srcType = "api" || srcType = "document" then
    if !o.fetchOk then handleBranchError o
    else if !o.extractOk then handleBranchError o
    else if !o.embedOk then handleBranchError o
    else if !o.storeOk then handleBranchError o
    else BranchTerminal.succeeded
  else handleBranchError o

structure TenantOracle where
  memoryOk : Bool
  memoryHandlerOk : Bool
  metadataOk : Bool
  metadataHandlerOk : Bool
  scheduleOk : Bool
  scheduleHandlerOk : Bool
  analyzeOk : Bool
  notifyOk : Bool
  deriving DecidableEq, Repr

inductive RunResult
  | validationError
  | completed (outcomes : List BranchTerminal)
  | runFailed
  deriving DecidableEq, Repr

/-- The whole state machine.  `isValid` is the `CheckValidationResult`
choice; the Map state fails (and with it the execution, since it has no
Catch) as soon as one iteration crashes; the three housekeeping steps
(`ConfigureMemoryDuration`, `UpdateMetadata`, `ScheduleNextCrawl`) route
failures through error handlers that continue to the next step, while
`AnalyzeResults` and `NotifyCompletion` failures are fatal. -/
def runPipeline (isValid : Bool) (sources : List (String × BranchOracle))
    (t : TenantOracle) : RunResult :=
  if !isValid then RunResult.validationError
  else
    let outcomes := sources.map (fun p => runBranch p.1 p.2)
    if outcomes.any (fun r => r == BranchTerminal.crashed) then RunResult.runFailed
    else if !t.memoryOk && !t.memoryHandlerOk then RunResult.runFailed
    else if !t.metadataOk && !t.metadataHandlerOk then RunResult.runFailed
    else if !t.scheduleOk && !t.scheduleHandlerOk then RunResult.runFailed
    else if !t.analyzeOk then RunResult.runFailed
    else if !t.notifyOk then RunResult.runFailed
    else RunResult.completed outcomes

/-- A stage of the per-source sub-pipeline fails: the type is unrecognized
(`InvalidSourceType`) or the fetch, extract, embedding, or storage stage
fails. -/
def stageFails (srcType : String) (o : BranchOracle) : Prop :=
  ¬(srcType = "website" ∨ srcType = "api" ∨ srcType = "document")
  ∨ o.fetchOk = false ∨ o.extractOk = false ∨ o.embedOk = false ∨ o.storeOk = false

instance (srcType : String) (o : BranchOracle) : Decidable (stageFails srcType o) := by
  unfold stageFails; infer_instance

/-! ## Retrieval engine (`chatbot_query.js`)

`searchRelevantContent`'s result-processing loop is pure once the search
hits are given; scores are modelled as rationals on the 0-1 scale.  The
embedding call and the OpenSearch request are `Except`-valued oracles;
`Except.error` is a thrown exception. -/

structure SearchHit where
  score : ℚ
  text : String
  url : String
  name : String
  deriving DecidableEq, Repr

structure SourceEntry where
  text : String
  url : String
  score : ℚ
  name : String
  deriving DecidableEq, Repr

def mkSourceEntry (h : SearchHit) : SourceEntry :=
  { text := if h.text.length > 200 then ⟨h.text.data.take 200⟩ ++ "..." else h.text
    url := h.url
    score := h.score
    name := h.name }

/-- The `hits.forEach` loop: a hit contributes to the assembled context and
to the sources list exactly under `score > 0.5`. -/
def processHits (hits : List SearchHit) : String × List SourceEntry :=
  hits.foldl
    (fun acc hit =>
      if hit.score > 1 / 2 then
        (acc.1 ++ hit.text ++ "\n\n", acc.2 ++ [mkSourceEntry hit])
      else acc)
    ("", [])

/-- `searchRelevantContent`: its `try` block throws when the embedding
Lambda fails, when it returns no embedding, or when the OpenSearch request
fails; the `catch` turns any of these into empty content and no sources. -/
def searchRelevantContent (embedResult : Except String (Option (List ℚ)))
    (searchResult : Except String (List SearchHit)) : String × List SourceEntry :=
  match embedResult with
  | Except.error _ => ("", [])
  | Except.ok none => ("", [])
  | Except.ok (some _) =>
    match searchResult with
    | Except.error _ => ("", [])
    | Except.ok hits => processHits hits

structure InferencePayload where
  error : Option String
  response : Option String
  deriving DecidableEq, Repr

def apologyMessage : String :=
  "I apologize, but I encountered an issue generating a response. Please try again later."

/-- `generateResponse`: a failed inference invocation, an `error` field in
the payload (`if (inferenceData.error) throw`, a truthy check), or a
missing `response` field (`.trim()` on undefined throws) are all caught and
replaced by the fixed apology string. -/
def generateResponse (invokeResult : Except String InferencePayload) : String :=
  match invokeResult with
  | Except.error _ => apologyMessage
  | Except.ok d =>
    if jsFalsy d.error then
      match d.response with
      | none => apologyMessage
      | some r => jsTrim r
    else apologyMessage

/-- The analytics item written by `recordQuery` (`dynamoDB.put`). -/
structure QueryRecord where
  id : String
  tenantId : String
  chatbotId : String
  sessionId : String
  query : String
  responseLength : Nat
  timestamp : String
  date : String
  deriving DecidableEq, Repr

def mkQueryRecord (queryId tenantId chatbotId sessionId query response timestamp : String) :
    QueryRecord :=
  { id := queryId
    tenantId := tenantId
    chatbotId := chatbotId
    sessionId := sessionId
    query := query
    responseLength := response.length
    timestamp := timestamp
    date := ((stringSplit (· = 'T') timestamp).headD "") }

/-- `recordQuery`'s own `try`/`catch`: a failed `put` is logged and
swallowed ("Continue execution even if recording fails"). -/
def recordQuery (putResult : Except String Unit) : Except String Unit :=
  match putResult with
  | Except.error _ => Except.ok ()
  | Except.ok _ => Except.ok ()

structure ApiResponse where
  statusCode : Nat
  response : String
  sessionId : String
  deriving DecidableEq, Repr

/-- The tail of the chatbot_query.js handler: `await recordQuery(...)`
inside the handler's `try`; if `recordQuery` propagated an exception the
outer `catch` would answer 500, otherwise the 200 response is returned. -/
def handlerFinish (putResult : Except String Unit) (response sessionId : String) : ApiResponse :=
  match recordQuery putResult with
  | Except.error _ =>
    { statusCode := 500, response := "An error occurred processing your query", sessionId := sessionId }
  | Except.ok _ => { statusCode := 200, response := response, sessionId := sessionId }

/-! ## Specification-side predicates

`specRejects` transcribes the specification's description of
`ValidateInput`'s rejection condition word for word: "tenantId is missing
or no tenant record exists for it, or dataSources is missing/empty, or
some data source lacks type, url, or name or has a type outside
{website, api, document}, or config is missing, or a supplied crawlDepth
is outside [1,3], a supplied memoryDuration is outside [5,1440], or a
supplied maxDocuments is outside [1,20]".  It is compared against the
behaviour of `validateInput`. -/

def specTenantBad (tenantExists : String → Bool) : Option String → Bool
  | none => true
  | some s => s = "" || !tenantExists s

def specSourceBad (s : DataSourceInput) : Bool :=
  (match s.type with
    | none => true
    | some t => t = "" || !(t = "website" || t = "api" || t = "document"))
  || jsFalsy s.url || jsFalsy s.name

def specDataSourcesBad : Option (List DataSourceInput) → Bool
  | none => true
  | some l => l.isEmpty || l.any specSourceBad

def specRangeBad (v : Option JsNum) (lo hi : Int) : Bool :=
  match v with
  | none => false
  | some JsNum.nan => true
  | some (JsNum.int n) => n < lo || n > hi

def specConfigBad : Option ConfigInput → Bool
  | none => true
  | some c =>
    specRangeBad c.crawlDepth 1 3 || specRangeBad c.memoryDuration 5 1440
      || specRangeBad c.maxDocuments 1 20

def specRejects (tenantExists : String → Bool) (ev : ValidateEvent) : Bool :=
  specTenantBad tenantExists ev.tenantId || specDataSourcesBad ev.dataSources
    || specConfigBad ev.config

/-- The additional rejection condition the code enforces and the
specification's list omits: a supplied `embeddingModel` that is truthy and
not a string. -/
def specEmbeddingModelBad : Option ConfigInput → Bool
  | none => false
  | some c =>
    match c.embeddingModel with
    | some (JsVal.jsOther true) => true
    | _ => false

/-- The specification's rejection condition amended with the
`embeddingModel` type check. -/
def amendedRejects (tenantExists : String → Bool) (ev : ValidateEvent) : Bool :=
  specRejects tenantExists ev || specEmbeddingModelBad ev.config

/-! ## Concrete example inputs used by counterexamples and witnesses -/

/-- An input that is valid under the specification's list of rejection
conditions but carries a truthy non-string `embeddingModel`. -/
def embeddingModelEvent : ValidateEvent :=
  { tenantId := some "tenant-1"
    dataSources := some [{ type := some "website", url := some "https://example.com", name := some "Docs" }]
    config := some { crawlDepth := some (JsNum.int 2), memoryDuration := none,
                     maxDocuments := none, embeddingModel := some (JsVal.jsOther true) } }

/-- A two-source run in which the second source's `ExtractText` stage
fails and everything else (including every error handler) succeeds. -/
def exampleSources : List (String × BranchOracle) :=
  [("website", ⟨true, true, true, true, true⟩), ("api", ⟨true, false, true, true, true⟩)]

def exampleTenantOracle : TenantOracle :=
  ⟨true, true, true, true, true, true, true, true⟩

/-- A two-page site: the base page links to a same-domain page and to an
external page; the external page must never be fetched. -/
def exampleWeb : String → CrawlPage := fun u =>
  if u = "https://example.com" then
    ⟨"home", ["https://example.com/a", "https://other.org/x", "https://example.com"]⟩
  else if u = "https://example.com/a" then ⟨"page a", ["https://example.com"]⟩
  else ⟨"", []⟩

def exampleHostname : String → Option String := fun u =>
  if u = "https://example.com" then some "example.com"
  else if u = "https://example.com/a" then some "example.com"
  else if u = "https://other.org/x" then some "other.org"
  else none

/-! # Theorems -/

/-- C3: the claim "every chunk returned by splitTextIntoChunks(text,
maxChunkSize) has length at most maxChunkSize" fails on the code: for the
text "ab..abc." and maxChunkSize 7 the greedy sentence packing admits a
sentence against the guard `cur.length + sentence.length + 1 ≤ max` but
then appends both a separating space and a terminating period, producing
the single chunk "ab. abc." of 8 > 7 characters. -/
theorem splitTextIntoChunks_exceeds_maxChunkSize :
    splitTextIntoChunks "ab..abc." 7 = ["ab. abc."]
    ∧ ("ab. abc." : String).length = 8 := ⟨rfl, rfl⟩

/-- C4: the claim "the chunk list contains no empty chunk" fails on the
code: when the current chunk is empty and a paragraph of exactly
maxChunkSize characters arrives, the overflow branch pushes the empty
current chunk unconditionally, so "abc" with maxChunkSize 3 yields the
chunk list ["", "abc"] whose first chunk is empty. -/
theorem splitTextIntoChunks_empty_chunk :
    splitTextIntoChunks "abc" 3 = ["", "abc"] := rfl

/-- C5: the claim that cleanText collapses runs of 3+ newlines to exactly
2 "so that paragraph breaks are preserved in its output" fails on the
code: the preceding whitespace collapse `replace(/\s+/g, ' ')` already
turns every newline into a space, so "a\n\n\nb" becomes "a b" and the
newline-preserving replacement never sees a newline. -/
theorem cleanText_loses_paragraph_breaks (stripHtml unicodeNormalize : String → String)
    (hnorm : unicodeNormalize "a b" = "a b") :
    cleanText stripHtml unicodeNormalize "a\n\n\nb" = "a b"
    ∧ cleanText stripHtml unicodeNormalize "a\n\n\nb" ≠ "a\n\nb" := by
  have h1 : cleanText stripHtml unicodeNormalize "a\n\n\nb"
      = jsTrim (unicodeNormalize "a b") := rfl
  rw [h1, hnorm]
  exact ⟨rfl, by decide⟩

theorem cleanText_loses_paragraph_breaks_witness :
    id "a b" = "a b"
    ∧ (cleanText id id "a\n\n\nb" = "a b" ∧ cleanText id id "a\n\n\nb" ≠ "a\n\nb") :=
  ⟨rfl, cleanText_loses_paragraph_breaks id id rfl⟩

/-- C9 counterexample: the analytics item written by recordQuery stores
the full query text in its `query` attribute (and the length it stores is
the response's, not the query's), refuting "stores the query's length
rather than its full content". -/
theorem queryRecord_stores_full_query :
    (mkQueryRecord "q-1" "t-1" "c-1" "s-1" "What is the refund policy?"
        "Our policy lasts 30 days." "2026-01-01T00:00:00Z").query
      = "What is the refund policy?"
    ∧ (mkQueryRecord "q-1" "t-1" "c-1" "s-1" "What is the refund policy?"
        "Our policy lasts 30 days." "2026-01-01T00:00:00Z").responseLength = 25
    ∧ ("What is the refund policy?" : String).length = 26 := ⟨rfl, rfl, rfl⟩

/-- C9 (amended): the analytics record stores the query's full content and
the response's length, and a failure of the analytics write never fails
the overall request: the handler still returns the 200 response. -/
theorem queryRecord_contents_and_failure_isolation
    (queryId tenantId chatbotId sessionId query response timestamp : String)
    (putResult : Except String Unit) :
    (mkQueryRecord queryId tenantId chatbotId sessionId query response timestamp).query = query
    ∧ (mkQueryRecord queryId tenantId chatbotId sessionId query response timestamp).responseLength
        = response.length
    ∧ handlerFinish putResult response sessionId
        = { statusCode := 200, response := response, sessionId := sessionId } := by
  refine ⟨rfl, rfl, ?_⟩
  cases putResult <;> rfl

/-- C8: the retrieval engine surfaces no generation or search failure to
its caller: a failed inference invocation, an error field in the inference
payload, or a malformed payload all produce the fixed apology string, and
a failed embedding call, an absent query embedding, or a failed OpenSearch
request all produce empty context and no sources. -/
theorem retrieval_failures_never_propagate :
    (∀ e : String, generateResponse (Except.error e) = apologyMessage)
    ∧ (∀ d : InferencePayload, jsFalsy d.error = false →
        generateResponse (Except.ok d) = apologyMessage)
    ∧ (∀ d : InferencePayload, d.error = none → d.response = none →
        generateResponse (Except.ok d) = apologyMessage)
    ∧ (∀ (emb : Except String (Option (List ℚ))) (s : String),
        searchRelevantContent emb (Except.error s) = ("", []))
    ∧ (∀ (s : String) (res : Except String (List SearchHit)),
        searchRelevantContent (Except.error s) res = ("", []))
    ∧ (∀ res : Except String (List SearchHit),
        searchRelevantContent (Except.ok none) res = ("", [])) := by
  refine ⟨fun e => rfl, fun d h => ?_, fun d h1 h2 => ?_, fun emb s => ?_, fun s res => rfl,
    fun res => rfl⟩
  · simp [generateResponse, h]
  · simp [generateResponse, h1, h2, jsFalsy]
  · cases emb with
    | error e => rfl
    | ok o => cases o <;> rfl

theorem retrieval_failures_witness :
    generateResponse (Except.error "invoke failed") = apologyMessage
    ∧ generateResponse (Except.ok ⟨some "model error", some "ignored"⟩) = apologyMessage
    ∧ searchRelevantContent (Except.ok (some [1])) (Except.error "search down") = ("", []) :=
  ⟨retrieval_failures_never_propagate.1 "invoke failed",
   retrieval_failures_never_propagate.2.1 ⟨some "model error", some "ignored"⟩ rfl,
   retrieval_failures_never_propagate.2.2.2.1 (Except.ok (some [1])) "search down"⟩

/-- C7 counterexample: a hit whose relevance score is exactly 0.5 is "not
below the threshold", yet the code's strict comparison `score > 0.5`
excludes it from both the assembled context and the sources list. -/
theorem hit_at_threshold_excluded :
    processHits [⟨1 / 2, "Refunds are accepted within 30 days.", "https://example.com/refund", "Docs"⟩]
      = ("", [])
    ∧ ¬ ((1 : ℚ) / 2 < 1 / 2) := by
  constructor
  · norm_num [processHits]
  · norm_num

theorem string_join_cons (x : String) (xs : List String) :
    String.join (x :: xs) = x ++ String.join xs := by
  rw [String.join_eq, String.join_eq]
  rfl

theorem string_append_assoc (a b c : String) : a ++ b ++ c = a ++ (b ++ c) := by
  apply String.ext
  simp [String.data_append, List.append_assoc]

/-- The hits a strict score comparison lets through. -/
theorem processHits_go (hits : List SearchHit) (c : String) (s : List SourceEntry) :
    hits.foldl
        (fun acc hit =>
          if hit.score > 1 / 2 then
            (acc.1 ++ hit.text ++ "\n\n", acc.2 ++ [mkSourceEntry hit])
          else acc)
        (c, s)
      = (c ++ String.join ((hits.filter (fun h => decide (h.score > 1 / 2))).map
            (fun h => h.text ++ "\n\n")),
         s ++ (hits.filter (fun h => decide (h.score > 1 / 2))).map mkSourceEntry) := by
  induction hits generalizing c s with
  | nil => simp [show String.join ([] : List String) = "" from rfl, String.append_empty]
  | cons h hs ih =>
    by_cases hsc : h.score > 1 / 2
    · rw [List.foldl_cons, if_pos hsc, ih]
      simp [hsc, List.filter_cons, string_join_cons, string_append_assoc, Prod.mk.injEq, -one_div]
    · rw [List.foldl_cons, if_neg hsc, ih]
      simp [hsc, List.filter_cons, -one_div]

/-- C7 (amended): a hit's text enters the assembled context, and its entry
the returned sources list, exactly when its relevance score is strictly
above the 0.5 threshold; the context is the included hits' texts in input
order and the sources are their citation entries in input order. -/
theorem processHits_strictly_above_threshold (hits : List SearchHit) :
    processHits hits
      = (String.join ((hits.filter (fun h => decide (h.score > 1 / 2))).map
            (fun h => h.text ++ "\n\n")),
         (hits.filter (fun h => decide (h.score > 1 / 2))).map mkSourceEntry) := by
  unfold processHits
  rw [processHits_go]
  simp [String.empty_append]

theorem ite_singleton_eq_nil {α : Type} (b : Prop) [Decidable b] (x : α) :
    (if b then [x] else []) = [] ↔ ¬ b := by
  split_ifs with h <;> simp [h]

theorem tenantErrors_eq_nil (te : String → Bool) (tid : Option String) :
    tenantErrors te tid = [] ↔ specTenantBad te tid = false := by
  cases tid with
  | none => simp [tenantErrors, specTenantBad]
  | some s =>
    by_cases hs : s = "" <;> by_cases hte : te s <;>
      simp [tenantErrors, specTenantBad, hs, hte]

theorem sourceErrors_eq_nil (i : Nat) (s : DataSourceInput) :
    sourceErrors i s = [] ↔ specSourceBad s = false := by
  rcases s with ⟨ty, url, name⟩
  cases ty with
  | none => simp [sourceErrors, specSourceBad]
  | some t =>
    by_cases h1 : t = ""
    · simp [sourceErrors, specSourceBad, h1]
    · by_cases h2 : (t = "website" || t = "api" || t = "document") = true
      · simp [sourceErrors, specSourceBad, h1, h2, List.append_eq_nil,
          ite_singleton_eq_nil]
      · simp only [Bool.not_eq_true] at h2
        simp [sourceErrors, specSourceBad, h1, h2, List.append_eq_nil]

theorem sourcesErrors_eq_nil (l : List DataSourceInput) (i : Nat) :
    sourcesErrors i l = [] ↔ l.any specSourceBad = false := by
  induction l generalizing i with
  | nil => simp [sourcesErrors]
  | cons s rest ih =>
    simp [sourcesErrors, List.append_eq_nil, sourceErrors_eq_nil, ih,
      Bool.or_eq_false_iff]

theorem dataSourcesErrors_eq_nil (ds : Option (List DataSourceInput)) :
    dataSourcesErrors ds = [] ↔ specDataSourcesBad ds = false := by
  cases ds with
  | none => simp [dataSourcesErrors, specDataSourcesBad]
  | some l =>
    by_cases hl : l = []
    · simp [dataSourcesErrors, specDataSourcesBad, hl]
    · simp [dataSourcesErrors, specDataSourcesBad, hl, sourcesErrors_eq_nil,
        Bool.or_eq_false_iff, List.isEmpty_iff]

theorem rangeErrors_eq_nil (v : Option JsNum) (lo hi : Int) (msg : String) :
    rangeErrors v lo hi msg = [] ↔ specRangeBad v lo hi = false := by
  cases v with
  | none => simp [rangeErrors, specRangeBad]
  | some n =>
    cases n with
    | nan => simp [rangeErrors, specRangeBad]
    | int m =>
      by_cases h : (decide (m < lo) || decide (m > hi)) = true <;>
        simp [rangeErrors, specRangeBad, h]

theorem configErrors_eq_nil (c : Option ConfigInput) :
    configErrors c = [] ↔ (specConfigBad c || specEmbeddingModelBad c) = false := by
  cases c with
  | none => simp [configErrors, specConfigBad, specEmbeddingModelBad]
  | some cfg =>
    rcases cfg with ⟨cd, md, mx, em⟩
    have hem :
        (match em with
          | some (JsVal.jsOther true) => ["Invalid embeddingModel: must be a string"]
          | _ => ([] : List String)) = []
          ↔ (specEmbeddingModelBad (some ⟨cd, md, mx, em⟩)) = false := by
      cases em with
      | none => simp [specEmbeddingModelBad]
      | some v =>
        cases v with
        | jsStr s => simp [specEmbeddingModelBad]
        | jsOther b => cases b <;> simp [specEmbeddingModelBad]
    simp [configErrors, specConfigBad, List.append_eq_nil, rangeErrors_eq_nil,
      Bool.or_eq_false_iff, hem, and_assoc]

/-- C2 (amended): `ValidateInput` returns `isValid = false` exactly when
the specification's listed conditions hold or a supplied `embeddingModel`
is truthy and not a string; every other input is accepted. -/
theorem validateInput_isValid_iff (te : String → Bool) (ev : ValidateEvent) :
    (validateInput te ev).isValid = false ↔ amendedRejects te ev = true := by
  have h : (validateInput te ev).isValid = true ↔ amendedRejects te ev = false := by
    show (tenantErrors te ev.tenantId ++ dataSourcesErrors ev.dataSources
        ++ configErrors ev.config).isEmpty = true ↔ _
    rw [List.isEmpty_iff, List.append_eq_nil, List.append_eq_nil]
    rw [tenantErrors_eq_nil, dataSourcesErrors_eq_nil, configErrors_eq_nil]
    simp [amendedRejects, specRejects, Bool.or_eq_false_iff, and_assoc]
  exact (Bool.eq_false_iff).trans ((not_congr h).trans Bool.ne_false_iff)

/-- C2 counterexample: an input satisfying none of the specification's
rejection conditions (valid tenant, one complete website source, in-range
crawlDepth) is nevertheless rejected by the code because its
`embeddingModel` is a truthy non-string. -/
theorem validateInput_rejects_beyond_spec :
    (validateInput (fun _ => true) embeddingModelEvent).isValid = false
    ∧ specRejects (fun _ => true) embeddingModelEvent = false := ⟨rfl, rfl⟩

theorem handleBranchError_failed (o : BranchOracle) (h : o.errorHandlerOk = true) :
    handleBranchError o = BranchTerminal.failed := by
  simp [handleBranchError, h]

/-- With working error handlers, every Map iteration ends in one of the
two Pass terminal states. -/
theorem runBranch_terminal (srcType : String) (o : BranchOracle)
    (h : o.errorHandlerOk = true) :
    runBranch srcType o = BranchTerminal.succeeded
    ∨ runBranch srcType o = BranchTerminal.failed := by
  unfold runBranch
  split_ifs <;> simp [handleBranchError_failed _ h]

/-- Any stage failure inside a source's sub-pipeline routes that branch to
`SourceProcessingFailed` (given the error-handler Task itself succeeds). -/
theorem runBranch_failed_of_stageFails (srcType : String) (o : BranchOracle)
    (hfail : stageFails srcType o) (h : o.errorHandlerOk = true) :
    runBranch srcType o = BranchTerminal.failed := by
  unfold runBranch
  unfold stageFails at hfail
  rcases hfail with h1 | h2 | h3 | h4 | h5 <;>
    split_ifs <;> simp_all [handleBranchError]

/-- C1: if validation passes and a single source's sub-pipeline fails at
any stage, only that branch reaches `SourceProcessingFailed`; every other
branch still reaches its own terminal state (its outcome in the Map result
is computed from its own oracle alone), and the run proceeds through the
tenant-level steps to `NotifyCompletion`, ending `completed` with the
per-source outcome list. -/
theorem pipeline_isolates_single_source_failure
    (sources : List (String × BranchOracle)) (t : TenantOracle) (i : Fin sources.length)
    (hfail : stageFails (sources.get i).1 (sources.get i).2)
    (hhandlers : ∀ p ∈ sources, p.2.errorHandlerOk = true)
    (hmem : t.memoryHandlerOk = true) (hmeta : t.metadataHandlerOk = true)
    (hsched : t.scheduleHandlerOk = true) (hanalyze : t.analyzeOk = true)
    (hnotify : t.notifyOk = true) :
    runPipeline true sources t = RunResult.completed (sources.map (fun p => runBranch p.1 p.2))
    ∧ runBranch (sources.get i).1 (sources.get i).2 = BranchTerminal.failed
    ∧ (sources.map (fun p => runBranch p.1 p.2)).all
        (fun r => r == BranchTerminal.succeeded || r == BranchTerminal.failed) = true := by
  have hterm : ∀ p ∈ sources,
      runBranch p.1 p.2 = BranchTerminal.succeeded
      ∨ runBranch p.1 p.2 = BranchTerminal.failed :=
    fun p hp => runBranch_terminal p.1 p.2 (hhandlers p hp)
  have hall : (sources.map (fun p => runBranch p.1 p.2)).all
      (fun r => r == BranchTerminal.succeeded || r == BranchTerminal.failed) = true := by
    rw [List.all_eq_true]
    intro r hr
    rcases List.mem_map.mp hr with ⟨p, hp, rfl⟩
    rcases hterm p hp with h | h <;> simp [h]
  have hnocrash : (sources.map (fun p => runBranch p.1 p.2)).any
      (fun r => r == BranchTerminal.crashed) = false := by
    rw [List.any_eq_false]
    intro r hr
    rcases List.mem_map.mp hr with ⟨p, hp, rfl⟩
    rcases hterm p hp with h | h <;> simp [h]
  refine ⟨?_,
    runBranch_failed_of_stageFails _ _ hfail (hhandlers _ (List.get_mem sources i.1 i.2)),
    hall⟩
  unfold runPipeline
  simp [hnocrash, hmem, hmeta, hsched, hanalyze, hnotify]

theorem pipeline_isolation_witness :
    stageFails "api" ⟨true, false, true, true, true⟩
    ∧ (runPipeline true exampleSources exampleTenantOracle
          = RunResult.completed (exampleSources.map (fun p => runBranch p.1 p.2))
      ∧ runBranch (exampleSources.get ⟨1, by decide⟩).1 (exampleSources.get ⟨1, by decide⟩).2
          = BranchTerminal.failed
      ∧ (exampleSources.map (fun p => runBranch p.1 p.2)).all
          (fun r => r == BranchTerminal.succeeded || r == BranchTerminal.failed) = true) :=
  ⟨by decide,
   pipeline_isolates_single_source_failure exampleSources exampleTenantOracle ⟨1, by decide⟩
     (by decide) (by decide) rfl rfl rfl rfl rfl⟩

theorem dedupKeepFirst_subset_aux (l acc : List String) (u : String)
    (h : u ∈ l.foldl (fun acc u => if u ∈ acc then acc else acc ++ [u]) acc) :
    u ∈ acc ∨ u ∈ l := by
  induction l generalizing acc with
  | nil => exact Or.inl h
  | cons x xs ih =>
    rw [List.foldl_cons] at h
    rcases ih _ h with h1 | h1
    · split_ifs at h1 with hx
      · exact Or.inl h1
      · rcases List.mem_append.mp h1 with h2 | h2
        · exact Or.inl h2
        · simp at h2
          simp [h2]
    · simp [h1]

theorem dedupKeepFirst_subset (l : List String) (u : String)
    (h : u ∈ dedupKeepFirst l) : u ∈ l := by
  rcases dedupKeepFirst_subset_aux l [] u h with h1 | h1
  · simp at h1
  · exact h1

/-- One visit preserves the level invariant: the `visitedUrls.has` guard
prevents double fetches and the same-domain filter keeps queued links
inside the starting domain. -/
theorem crawlVisit_preserves (web : String → CrawlPage) (hostname : String → Option String)
    (domain baseUrl : String) (collect : Bool)
    (acc : CrawlState × List String) (u : String)
    (hinv : levelInv hostname baseUrl domain acc)
    (hu : crawlOk hostname baseUrl domain u) :
    levelInv hostname baseUrl domain (crawlVisit web hostname domain collect acc u) := by
  obtain ⟨hnodup, hsub, hok, hnext⟩ := hinv
  unfold crawlVisit
  by_cases hvis : u ∈ acc.1.visited
  · rw [if_pos hvis]
    exact ⟨hnodup, hsub, hok, hnext⟩
  · rw [if_neg hvis]
    have hufetched : u ∉ acc.1.fetched := fun hf => hvis (hsub u hf)
    refine ⟨?_, ?_, ?_, ?_⟩
    · simpa [List.nodup_append] using ⟨hnodup, hufetched⟩
    · intro v hv
      rcases List.mem_append.mp hv with h1 | h1
      · exact List.mem_append.mpr (Or.inl (hsub v h1))
      · exact List.mem_append.mpr (Or.inr h1)
    · intro v hv
      rcases List.mem_append.mp hv with h1 | h1
      · exact hok v h1
      · simp at h1
        exact h1 ▸ hu
    · intro v hv
      by_cases hc : collect
      · simp only [hc, if_true] at hv
        rcases List.mem_append.mp hv with h1 | h1
        · exact hnext v h1
        · have hmem := (List.mem_filter.mp h1).2
          simp only [Bool.and_eq_true] at hmem
          exact hmem.2
      · simp only [hc, if_false] at hv
        exact hnext v hv

theorem crawlLevel_preserves (web : String → CrawlPage) (hostname : String → Option String)
    (domain baseUrl : String) (collect : Bool) (urls : List String) :
    ∀ (acc : CrawlState × List String),
    levelInv hostname baseUrl domain acc →
    (∀ u ∈ urls, crawlOk hostname baseUrl domain u) →
    levelInv hostname baseUrl domain
      (urls.foldl (crawlVisit web hostname domain collect) acc) := by
  induction urls with
  | nil => intro acc hinv _; exact hinv
  | cons x xs ih =>
    intro acc hinv hurls
    rw [List.foldl_cons]
    exact ih _ (crawlVisit_preserves web hostname domain baseUrl collect acc x hinv
        (hurls x (List.mem_cons_self x xs)))
      (fun u hu => hurls u (List.mem_cons_of_mem x hu))

theorem crawlLoop_invariant (web : String → CrawlPage) (hostname : String → Option String)
    (domain baseUrl : String) (fuel : Nat) :
    ∀ (urls : List String) (st : CrawlState),
    st.fetched.Nodup →
    (∀ u ∈ st.fetched, u ∈ st.visited) →
    (∀ u ∈ st.fetched, crawlOk hostname baseUrl domain u) →
    (∀ u ∈ urls, crawlOk hostname baseUrl domain u) →
    (crawlLoop web hostname domain fuel urls st).fetched.Nodup
    ∧ ∀ u ∈ (crawlLoop web hostname domain fuel urls st).fetched,
        crawlOk hostname baseUrl domain u := by
  induction fuel with
  | zero => intro urls st h1 _ h3 _; exact ⟨h1, h3⟩
  | succ rem ih =>
    intro urls st h1 h2 h3 h4
    have hlev := crawlLevel_preserves web hostname domain baseUrl (decide (0 < rem)) urls
      (st, []) ⟨h1, h2, h3, by intro u hu; simp at hu⟩ h4
    unfold crawlLoop
    by_cases hn : dedupKeepFirst
        (urls.foldl (crawlVisit web hostname domain (decide (0 < rem))) (st, [])).2 = []
    · simp only [hn, if_pos]
      exact ⟨hlev.1, hlev.2.2.1⟩
    · simp only [hn, if_neg, if_false]
      exact ih _ _ hlev.1 hlev.2.1 hlev.2.2.1
        (fun u hu => Or.inr (hlev.2.2.2 u (dedupKeepFirst_subset _ u hu)))

/-- C6: for every web and URL-parsing oracle, every starting URL and every
crawl depth in [1,3], the crawler fetches no URL twice, and every fetched
URL other than the starting one has a hostname equal to, or a dot-suffix
of, the starting URL's domain (links outside the starting domain are never
followed). -/
theorem crawler_no_revisit_and_same_domain (web : String → CrawlPage)
    (hostname : String → Option String) (baseUrl : String) (depth : Nat)
    (hlo : 1 ≤ depth) (hhi : depth ≤ 3) :
    (crawlWebsite web hostname baseUrl depth).fetched.Nodup
    ∧ (crawlWebsite web hostname baseUrl depth).fetched.all
        (fun u => u == baseUrl || sameDomain hostname u ((hostname baseUrl).getD "")) = true := by
  unfold crawlWebsite
  have hinv := crawlLoop_invariant web hostname ((hostname baseUrl).getD "") baseUrl depth
    [baseUrl] ⟨[], [], []⟩ (by simp) (by intro u hu; simp at hu)
    (by intro u hu; simp at hu)
    (by intro u hu; simp at hu; exact Or.inl hu)
  refine ⟨hinv.1, ?_⟩
  rw [List.all_eq_true]
  intro u hu
  rcases hinv.2 u hu with h | h <;> simp [h]

theorem crawler_witness :
    (1 ≤ 2 ∧ 2 ≤ 3)
    ∧ ((crawlWebsite exampleWeb exampleHostname "https://example.com" 2).fetched.Nodup
      ∧ (crawlWebsite exampleWeb exampleHostname "https://example.com" 2).fetched.all
          (fun u => u == "https://example.com"
            || sameDomain exampleHostname u ((exampleHostname "https://example.com").getD ""))
          = true) :=
  ⟨⟨by decide, by decide⟩,
   crawler_no_revisit_and_same_domain exampleWeb exampleHostname "https://example.com" 2
     (by decide) (by decide)⟩

end AiWorkflow
